import Mathlib

/-!
Shallow embedding of `opm/material/fluidmatrixinteractions/PiecewiseLinearTwoPhaseMaterialParams.hpp`.

The C++ class `PiecewiseLinearTwoPhaseMaterialParams<TraitsT, VectorT>` stores six
sample sequences (three (saturation, value) pairs).  We model the scalar type by `ℚ`
and `VectorT` by `List ℚ`.  The compile-time distinction between a mutable (owning)
container and an immutable (view) container (`std::is_const_v` in the source) is
modelled by a boolean parameter `isConst`.  Fallible operations (out-of-bounds
`front()`/`back()` access on an empty vector, the `OPM_THROW` of a `std::logic_error`,
and the finalize guard) are modelled with `Except PlError`.
-/

namespace Opm

/-- Failure modes of the embedded operations: undefined out-of-bounds access
(`front()`/`back()` on an empty vector), the thrown `std::logic_error`, and the
finalize-guard failure on a pre-finalize read. -/
inductive PlError where
  | outOfBounds
  | logicError
  | notFinalized
  deriving DecidableEq, Repr

instance {ε α : Type} [DecidableEq ε] [DecidableEq α] : DecidableEq (Except ε α) := by
  intro a b
  cases a <;> cases b
  · exact decidable_of_iff _ (by rw [Except.error.injEq])
  · exact isFalse Except.noConfusion
  · exact isFalse Except.noConfusion
  · exact decidable_of_iff _ (by rw [Except.ok.injEq])

/-- The state of a `PiecewiseLinearTwoPhaseMaterialParams` object: the six sample
sequences (member order as in the source) together with the finalize-guard flag.
The flag is modelled from the spec: the `EnsureFinalized` base class is not part of
`src/`; per the spec it tracks whether `finalize()` has run and read accessors must
fail loudly before that. -/
structure Params where
  finalized : Bool
  SwPcwnSamples_ : List ℚ
  SwKrwSamples_ : List ℚ
  SwKrnSamples_ : List ℚ
  pcwnSamples_ : List ℚ
  krwSamples_ : List ℚ
  krnSamples_ : List ℚ
  deriving DecidableEq, Repr

namespace EnsureFinalized

/-- Modelled from the spec: `EnsureFinalized::finalize()` (header not under `src/`)
marks the object as finalized. -/
def doFinalize (p : Params) : Params :=
  { p with finalized := true }

/-- Modelled from the spec: `EnsureFinalized::check()` (header not under `src/`)
fails loudly when a read occurs before `finalize()` has run. -/
def check (p : Params) : Except PlError Unit :=
  if p.finalized then .ok () else .error .notFinalized

end EnsureFinalized

namespace Params

/-- The default constructor: all six sequences empty, not yet finalized. -/
def mkDefault : Params :=
  { finalized := false
    SwPcwnSamples_ := []
    SwKrwSamples_ := []
    SwKrnSamples_ := []
    pcwnSamples_ := []
    krwSamples_ := []
    krnSamples_ := [] }

/-- One `std::swap(l[i], l[j])` on a sequence, as in the reversal loop of
`swapOrderIfPossibleThrowOtherwise_` (the loop only uses in-range indices). -/
def listSwap (l : List ℚ) (i j : Nat) : List ℚ :=
  (l.set i (l.getD j 0)).set j (l.getD i 0)

/-- The action of the reversal loop of `swapOrderIfPossibleThrowOtherwise_` on a single
sequence: iterations `0, 1, ..., k-1`, each swapping index `origSampleIdx` with
`n - origSampleIdx - 1`. -/
def swapIter (n : Nat) : Nat → List ℚ → List ℚ
  | 0, l => l
  | k + 1, l => listSwap (swapIter n k l) k (n - k - 1)

/-- The reversal loop of `swapOrderIfPossibleThrowOtherwise_`: iterations
`origSampleIdx = 0, 1, ..., k-1`, each swapping `origSampleIdx` with
`newSampleIdx = n - origSampleIdx - 1` in both sequences, where `n` is
`swValues.size()`.  The source runs it with `k = n / 2`. -/
def swapPairIter (n : Nat) : Nat → List ℚ × List ℚ → List ℚ × List ℚ
  | 0, p => p
  | k + 1, p =>
      let q := swapPairIter n k p
      (listSwap q.1 k (n - k - 1), listSwap q.2 k (n - k - 1))

/-- `swapOrderIfPossibleThrowOtherwise_(swValues, values)`: reads
`swValues.front()` and `values.back()`; if `front > back`, either reverses both
sequences in place (mutable container) or throws a `std::logic_error`
(immutable/view container, `isConst = true`). -/
def swapOrderIfPossibleThrowOtherwise_ (isConst : Bool) (swValues values : List ℚ) :
    Except PlError (List ℚ × List ℚ) :=
  match swValues.head?, values.getLast? with
  | some f, some b =>
      if f > b then
        if isConst then
          .error .logicError
        else
          .ok (swapPairIter swValues.length (swValues.length / 2) (swValues, values))
      else
        .ok (swValues, values)
  | _, _ => .error .outOfBounds

/-- One guarded pair step of `finalize()`: reads `sw.front()` and `sw.back()` and, when
the sequence starts above where it ends, invokes `swapOrderIfPossibleThrowOtherwise_`. -/
def finalizePair (isConst : Bool) (sw v : List ℚ) : Except PlError (List ℚ × List ℚ) :=
  match sw.head?, sw.getLast? with
  | some f, some b =>
      if f > b then swapOrderIfPossibleThrowOtherwise_ isConst sw v
      else .ok (sw, v)
  | _, _ => .error .outOfBounds

/-- `finalize()`: sets the finalize-guard flag, then normalizes the ordering of each
of the three (saturation, value) pairs. -/
def finalize (isConst : Bool) (p : Params) : Except PlError Params := do
  let p := EnsureFinalized.doFinalize p
  let pc ← finalizePair isConst p.SwPcwnSamples_ p.pcwnSamples_
  let krw ← finalizePair isConst p.SwKrwSamples_ p.krwSamples_
  let krn ← finalizePair isConst p.SwKrnSamples_ p.krnSamples_
  .ok { p with
        SwPcwnSamples_ := pc.1, pcwnSamples_ := pc.2
        SwKrwSamples_ := krw.1, krwSamples_ := krw.2
        SwKrnSamples_ := krn.1, krnSamples_ := krn.2 }

/-- The six-argument constructor: stores the six sequences and immediately finalizes. -/
def mk6 (isConst : Bool)
    (SwPcwnSamples pcwnSamples SwKrwSamples krwSamples SwKrnSamples krnSamples : List ℚ) :
    Except PlError Params :=
  finalize isConst
    { finalized := false
      SwPcwnSamples_ := SwPcwnSamples
      SwKrwSamples_ := SwKrwSamples
      SwKrnSamples_ := SwKrnSamples
      pcwnSamples_ := pcwnSamples
      krwSamples_ := krwSamples
      krnSamples_ := krnSamples }

/-- Accessor `SwPcwnSamples()`: checks the finalize guard, then returns the sequence. -/
def SwPcwnSamples (p : Params) : Except PlError (List ℚ) := do
  EnsureFinalized.check p
  .ok p.SwPcwnSamples_

/-- Accessor `pcwnSamples()`: checks the finalize guard, then returns the sequence. -/
def pcwnSamples (p : Params) : Except PlError (List ℚ) := do
  EnsureFinalized.check p
  .ok p.pcwnSamples_

/-- Accessor `SwKrwSamples()`: checks the finalize guard, then returns the sequence. -/
def SwKrwSamples (p : Params) : Except PlError (List ℚ) := do
  EnsureFinalized.check p
  .ok p.SwKrwSamples_

/-- Accessor `krwSamples()`: checks the finalize guard, then returns the sequence. -/
def krwSamples (p : Params) : Except PlError (List ℚ) := do
  EnsureFinalized.check p
  .ok p.krwSamples_

/-- Accessor `SwKrnSamples()`: checks the finalize guard, then returns the sequence. -/
def SwKrnSamples (p : Params) : Except PlError (List ℚ) := do
  EnsureFinalized.check p
  .ok p.SwKrnSamples_

/-- Accessor `krnSamples()`: checks the finalize guard, then returns the sequence. -/
def krnSamples (p : Params) : Except PlError (List ℚ) := do
  EnsureFinalized.check p
  .ok p.krnSamples_

/-- `std::vector::resize(n)` on a value-initializing vector of scalars. -/
def vresize (l : List ℚ) (n : Nat) : List ℚ :=
  l.take n ++ List.replicate (n - l.length) 0

/-- `std::copy(src.begin(), src.end(), dst.begin())`: overwrites the first
`src.length` elements of `dst` (in the source, `dst` has been resized so that
`src.length = dst.length`). -/
def vcopy (src dst : List ℚ) : List ℚ :=
  src ++ dst.drop src.length

/-- `setPcnwSamples(SwValues, values)`: resizes both member sequences of the
capillary-pressure pair to `SwValues.size()` and copies the inputs in. -/
def setPcnwSamples (p : Params) (SwValues values : List ℚ) : Params :=
  let n := SwValues.length
  { p with
    SwPcwnSamples_ := vcopy SwValues (vresize p.SwPcwnSamples_ n)
    pcwnSamples_ := vcopy values (vresize p.pcwnSamples_ n) }

/-- `setKrwSamples(SwValues, values)`: resizes both member sequences of the
wetting-phase relative-permeability pair and copies the inputs in. -/
def setKrwSamples (p : Params) (SwValues values : List ℚ) : Params :=
  let n := SwValues.length
  { p with
    SwKrwSamples_ := vcopy SwValues (vresize p.SwKrwSamples_ n)
    krwSamples_ := vcopy values (vresize p.krwSamples_ n) }

/-- `setKrnSamples(SwValues, values)`: resizes both member sequences of the
non-wetting-phase relative-permeability pair and copies the inputs in. -/
def setKrnSamples (p : Params) (SwValues values : List ℚ) : Params :=
  let n := SwValues.length
  { p with
    SwKrnSamples_ := vcopy SwValues (vresize p.SwKrnSamples_ n)
    krnSamples_ := vcopy values (vresize p.krnSamples_ n) }

/-- The per-pair equal-length invariant: within each of the three
(saturation, value) pairs, both member sequences have identical length. -/
abbrev lenInv (p : Params) : Prop :=
  p.SwPcwnSamples_.length = p.pcwnSamples_.length ∧
  p.SwKrwSamples_.length = p.krwSamples_.length ∧
  p.SwKrnSamples_.length = p.krnSamples_.length

end Params

/-- Modelled from the spec: the container-level `make_view` overload used at lines
291-296 (it turns an owning sequence into a non-owning view of the same memory, no
copy) is not under `src/`; at the value level it is the identity on the sequence. -/
def make_view_seq (l : List ℚ) : List ℚ := l

/-- `Opm::gpuistl::make_view(params)`: reads the six sequences through the guarded
accessors, wraps each in a view, and builds the view table through the six-argument
constructor instantiated at the immutable view container type (`isConst = true`). -/
def make_view (params : Params) : Except PlError Params := do
  let SwPcwnSamples ← Params.SwPcwnSamples params
  let pcwnSamples ← Params.pcwnSamples params
  let SwKrwSamples ← Params.SwKrwSamples params
  let krwSamples ← Params.krwSamples params
  let SwKrnSamples ← Params.SwKrnSamples params
  let krnSamples ← Params.krnSamples params
  Params.mk6 true (make_view_seq SwPcwnSamples) (make_view_seq pcwnSamples)
    (make_view_seq SwKrwSamples) (make_view_seq krwSamples)
    (make_view_seq SwKrnSamples) (make_view_seq krnSamples)

end Opm

namespace Opm.Params

/-! ### The reversal loop realizes `List.reverse` -/

theorem length_listSwap (l : List ℚ) (i j : Nat) : (listSwap l i j).length = l.length := by
  simp [listSwap]

theorem swapPairIter_eq_swapIter (n k : Nat) (sw v : List ℚ) :
    swapPairIter n k (sw, v) = (swapIter n k sw, swapIter n k v) := by
  induction k with
  | zero => rfl
  | succ k ih => simp [swapPairIter, swapIter, ih]

theorem length_swapIter (n k : Nat) (l : List ℚ) : (swapIter n k l).length = l.length := by
  induction k with
  | zero => rfl
  | succ k ih => simp [swapIter, length_listSwap, ih]

theorem getElem?_listSwap (l : List ℚ) (i j m : Nat) (hij : i ≠ j)
    (hi : i < l.length) (hj : j < l.length) :
    (listSwap l i j)[m]? = if m = i then l[j]? else if m = j then l[i]? else l[m]? := by
  unfold listSwap
  by_cases hmj : m = j
  · subst hmj
    rw [List.getElem?_set_self (by simp [hi, hj]), if_neg (by omega), if_pos rfl]
    rw [List.getD_eq_getElem?_getD, List.getElem?_eq_getElem hi]
    rfl
  · rw [List.getElem?_set_ne (by omega)]
    by_cases hmi : m = i
    · subst hmi
      rw [List.getElem?_set_self hi, if_pos rfl]
      rw [List.getD_eq_getElem?_getD, List.getElem?_eq_getElem hj]
      rfl
    · rw [List.getElem?_set_ne (by omega), if_neg hmi, if_neg hmj]

theorem getElem?_swapIter (l : List ℚ) (n : Nat) (hn : l.length = n) :
    ∀ k, k ≤ n / 2 → ∀ j, j < n →
      (swapIter n k l)[j]? = if j < k ∨ n - k ≤ j then l[n - 1 - j]? else l[j]? := by
  intro k
  induction k with
  | zero =>
      intro _ j hj
      rw [if_neg (by omega)]
      rfl
  | succ k ih =>
      intro hk1 j hj
      have hk : k ≤ n / 2 := by omega
      have h2k : 2 * (k + 1) ≤ n := by omega
      have hlen : (swapIter n k l).length = n := by rw [length_swapIter, hn]
      show (listSwap (swapIter n k l) k (n - k - 1))[j]? = _
      rw [getElem?_listSwap _ _ _ _ (by omega) (by omega) (by omega)]
      by_cases hjk : j = k
      · rw [if_pos hjk, ih hk (n - k - 1) (by omega), if_neg (by omega),
            if_pos (by omega)]
        have : n - 1 - j = n - k - 1 := by omega
        rw [this]
      · rw [if_neg hjk]
        by_cases hjk' : j = n - k - 1
        · rw [if_pos hjk', ih hk k (by omega), if_neg (by omega), if_pos (by omega)]
          have : n - 1 - j = k := by omega
          rw [this]
        · rw [if_neg hjk', ih hk j hj]
          by_cases hr : j < k ∨ n - k ≤ j
          · rw [if_pos hr, if_pos (by omega)]
          · rw [if_neg hr, if_neg (by omega)]

theorem swapIter_reverse (l : List ℚ) : swapIter l.length (l.length / 2) l = l.reverse := by
  apply List.ext_getElem?
  intro i
  by_cases hi : i < l.length
  · rw [getElem?_swapIter l l.length rfl (l.length / 2) le_rfl i hi,
        List.getElem?_reverse hi]
    by_cases hr : i < l.length / 2 ∨ l.length - l.length / 2 ≤ i
    · rw [if_pos hr]
    · rw [if_neg hr]
      have : l.length - 1 - i = i := by omega
      rw [this]
  · rw [List.getElem?_eq_none (by rw [length_swapIter]; omega),
        List.getElem?_eq_none (by rw [List.length_reverse]; omega)]

theorem swapPairIter_reverse (sw v : List ℚ) (h : sw.length = v.length) :
    swapPairIter sw.length (sw.length / 2) (sw, v) = (sw.reverse, v.reverse) := by
  rw [swapPairIter_eq_swapIter, swapIter_reverse]
  have hv : swapIter sw.length (sw.length / 2) v = v.reverse := by
    rw [h, swapIter_reverse]
  rw [hv]

end Opm.Params

namespace Opm.Params

/-! ### Characterizations of `finalizePair` and `finalize` -/

theorem except_bind_ok {ε α β : Type} (a : α) (f : α → Except ε β) :
    (Except.ok a >>= f) = f a := rfl

theorem except_bind_error {ε α β : Type} (e : ε) (f : α → Except ε β) :
    ((Except.error e : Except ε α) >>= f) = Except.error e := rfl

theorem head?_eq_headD (l : List ℚ) (h : l ≠ []) : l.head? = some (l.headD 0) := by
  cases l with
  | nil => exact absurd rfl h
  | cons a t => rfl

theorem getLast?_eq_getLastD (l : List ℚ) (h : l ≠ []) :
    l.getLast? = some (l.getLastD 0) := by
  rw [List.getLastD_eq_getLast?]
  cases hh : l.getLast? with
  | none => exact absurd (List.getLast?_eq_none_iff.mp hh) h
  | some x => rfl

theorem headD_reverse (l : List ℚ) : l.reverse.headD 0 = l.getLastD 0 := by
  rw [List.headD_eq_head?, List.head?_reverse, List.getLastD_eq_getLast?]

theorem getLastD_reverse (l : List ℚ) : l.reverse.getLastD 0 = l.headD 0 := by
  rw [List.getLastD_eq_getLast?, List.getLast?_reverse, List.headD_eq_head?]

theorem finalizePair_nil (b : Bool) (v : List ℚ) :
    finalizePair b [] v = .error .outOfBounds := rfl

theorem finalizePair_ok_ne_nil (b : Bool) (sw v : List ℚ) (r : List ℚ × List ℚ)
    (h : finalizePair b sw v = .ok r) : sw ≠ [] := by
  intro hnil
  subst hnil
  rw [finalizePair_nil] at h
  exact Except.noConfusion h

theorem finalizePair_some (b : Bool) (sw v : List ℚ) (f bk : ℚ)
    (h1 : sw.head? = some f) (h2 : sw.getLast? = some bk) :
    finalizePair b sw v =
      if f > bk then swapOrderIfPossibleThrowOtherwise_ b sw v else .ok (sw, v) := by
  unfold finalizePair
  rw [h1, h2]

theorem swapOrder_some (b : Bool) (sw v : List ℚ) (f bk : ℚ)
    (h1 : sw.head? = some f) (h2 : v.getLast? = some bk) :
    swapOrderIfPossibleThrowOtherwise_ b sw v =
      if f > bk then
        (if b then .error .logicError
         else .ok (swapPairIter sw.length (sw.length / 2) (sw, v)))
      else .ok (sw, v) := by
  unfold swapOrderIfPossibleThrowOtherwise_
  rw [h1, h2]

theorem finalizePair_false_eq (sw v : List ℚ) (hsw : sw ≠ []) (hv : v ≠ [])
    (hlen : sw.length = v.length) :
    finalizePair false sw v =
      .ok (if sw.headD 0 > sw.getLastD 0 ∧ sw.headD 0 > v.getLastD 0
           then (sw.reverse, v.reverse) else (sw, v)) := by
  rw [finalizePair_some false sw v _ _ (head?_eq_headD sw hsw) (getLast?_eq_getLastD sw hsw)]
  by_cases h1 : sw.headD 0 > sw.getLastD 0
  · rw [if_pos h1,
        swapOrder_some false sw v _ _ (head?_eq_headD sw hsw) (getLast?_eq_getLastD v hv)]
    by_cases h2 : sw.headD 0 > v.getLastD 0
    · rw [if_pos h2, if_neg Bool.false_ne_true, if_pos ⟨h1, h2⟩,
          swapPairIter_reverse sw v hlen]
    · rw [if_neg h2, if_neg (by tauto)]
  · rw [if_neg h1, if_neg (by tauto)]

theorem finalizePair_true_eq (sw v : List ℚ) (hsw : sw ≠ []) (hv : v ≠ []) :
    finalizePair true sw v =
      if sw.headD 0 > sw.getLastD 0 ∧ sw.headD 0 > v.getLastD 0
      then .error .logicError else .ok (sw, v) := by
  rw [finalizePair_some true sw v _ _ (head?_eq_headD sw hsw) (getLast?_eq_getLastD sw hsw)]
  by_cases h1 : sw.headD 0 > sw.getLastD 0
  · rw [if_pos h1,
        swapOrder_some true sw v _ _ (head?_eq_headD sw hsw) (getLast?_eq_getLastD v hv)]
    by_cases h2 : sw.headD 0 > v.getLastD 0
    · rw [if_pos h2, if_pos rfl, if_pos ⟨h1, h2⟩]
    · rw [if_neg h2, if_neg (by tauto)]
  · rw [if_neg h1, if_neg (by tauto)]

theorem finalizePair_eq_of_not (b : Bool) (sw v : List ℚ) (hsw : sw ≠ []) (hv : v ≠ [])
    (hc : ¬(sw.headD 0 > sw.getLastD 0 ∧ sw.headD 0 > v.getLastD 0)) :
    finalizePair b sw v = .ok (sw, v) := by
  rw [finalizePair_some b sw v _ _ (head?_eq_headD sw hsw) (getLast?_eq_getLastD sw hsw)]
  by_cases h1 : sw.headD 0 > sw.getLastD 0
  · have h2 : ¬ sw.headD 0 > v.getLastD 0 := by tauto
    rw [if_pos h1,
        swapOrder_some b sw v _ _ (head?_eq_headD sw hsw) (getLast?_eq_getLastD v hv),
        if_neg h2]
  · rw [if_neg h1]

theorem finalizePair_post (sw v swB vB : List ℚ) (hlen : sw.length = v.length)
    (h : finalizePair false sw v = .ok (swB, vB)) (bB : Bool) :
    finalizePair bB swB vB = .ok (swB, vB) := by
  have hsw : sw ≠ [] := finalizePair_ok_ne_nil false sw v _ h
  have hv : v ≠ [] := by
    intro hnil
    apply hsw
    rw [← List.length_eq_zero, hlen, hnil]
    rfl
  rw [finalizePair_false_eq sw v hsw hv hlen] at h
  by_cases hc : sw.headD 0 > sw.getLastD 0 ∧ sw.headD 0 > v.getLastD 0
  · rw [if_pos hc] at h
    injection h with h
    injection h with e1 e2
    subst e1
    subst e2
    apply finalizePair_eq_of_not bB _ _ (by simp [hsw]) (by simp [hv])
    rw [headD_reverse, getLastD_reverse]
    intro hcontra
    exact absurd hc.1 (lt_asymm hcontra.1)
  · rw [if_neg hc] at h
    injection h with h
    injection h with e1 e2
    subst e1
    subst e2
    exact finalizePair_eq_of_not bB _ _ hsw hv hc

theorem finalizePair_ok_lengths (b : Bool) (sw v sw' v' : List ℚ)
    (h : finalizePair b sw v = .ok (sw', v')) :
    sw'.length = sw.length ∧ v'.length = v.length := by
  unfold finalizePair swapOrderIfPossibleThrowOtherwise_ at h
  split at h
  · split at h
    · split at h
      · split at h
        · split at h
          · exact Except.noConfusion h
          · rw [swapPairIter_eq_swapIter] at h
            injection h with h
            injection h with e1 e2
            subst e1
            subst e2
            exact ⟨length_swapIter _ _ _, length_swapIter _ _ _⟩
        · injection h with h
          injection h with e1 e2
          subst e1
          subst e2
          exact ⟨rfl, rfl⟩
      · exact Except.noConfusion h
    · injection h with h
      injection h with e1 e2
      subst e1
      subst e2
      exact ⟨rfl, rfl⟩
  · exact Except.noConfusion h

theorem finalize_eq_of_pairs (b : Bool) (p : Params) (pc krw krn : List ℚ × List ℚ)
    (h1 : finalizePair b p.SwPcwnSamples_ p.pcwnSamples_ = .ok pc)
    (h2 : finalizePair b p.SwKrwSamples_ p.krwSamples_ = .ok krw)
    (h3 : finalizePair b p.SwKrnSamples_ p.krnSamples_ = .ok krn) :
    finalize b p = .ok { finalized := true
                         SwPcwnSamples_ := pc.1
                         SwKrwSamples_ := krw.1
                         SwKrnSamples_ := krn.1
                         pcwnSamples_ := pc.2
                         krwSamples_ := krw.2
                         krnSamples_ := krn.2 } := by
  simp [finalize, EnsureFinalized.doFinalize, h1, h2, h3, except_bind_ok]

theorem finalize_error1 (b : Bool) (p : Params) (e : PlError)
    (h : finalizePair b p.SwPcwnSamples_ p.pcwnSamples_ = .error e) :
    finalize b p = .error e := by
  simp [finalize, EnsureFinalized.doFinalize, h, except_bind_error]

theorem finalize_error2 (b : Bool) (p : Params) (pc : List ℚ × List ℚ) (e : PlError)
    (h1 : finalizePair b p.SwPcwnSamples_ p.pcwnSamples_ = .ok pc)
    (h : finalizePair b p.SwKrwSamples_ p.krwSamples_ = .error e) :
    finalize b p = .error e := by
  simp [finalize, EnsureFinalized.doFinalize, h1, h, except_bind_ok, except_bind_error]

theorem finalize_error3 (b : Bool) (p : Params) (pc krw : List ℚ × List ℚ) (e : PlError)
    (h1 : finalizePair b p.SwPcwnSamples_ p.pcwnSamples_ = .ok pc)
    (h2 : finalizePair b p.SwKrwSamples_ p.krwSamples_ = .ok krw)
    (h : finalizePair b p.SwKrnSamples_ p.krnSamples_ = .error e) :
    finalize b p = .error e := by
  simp [finalize, EnsureFinalized.doFinalize, h1, h2, h, except_bind_ok, except_bind_error]

theorem finalize_ok_inv (b : Bool) (p q : Params) (h : finalize b p = .ok q) :
    ∃ pc krw krn : List ℚ × List ℚ,
      finalizePair b p.SwPcwnSamples_ p.pcwnSamples_ = .ok pc ∧
      finalizePair b p.SwKrwSamples_ p.krwSamples_ = .ok krw ∧
      finalizePair b p.SwKrnSamples_ p.krnSamples_ = .ok krn ∧
      q = { finalized := true
            SwPcwnSamples_ := pc.1
            SwKrwSamples_ := krw.1
            SwKrnSamples_ := krn.1
            pcwnSamples_ := pc.2
            krwSamples_ := krw.2
            krnSamples_ := krn.2 } := by
  cases hpc : finalizePair b p.SwPcwnSamples_ p.pcwnSamples_ with
  | error e =>
      rw [finalize_error1 b p e hpc] at h
      exact Except.noConfusion h
  | ok pc =>
      cases hkrw : finalizePair b p.SwKrwSamples_ p.krwSamples_ with
      | error e =>
          rw [finalize_error2 b p pc e hpc hkrw] at h
          exact Except.noConfusion h
      | ok krw =>
          cases hkrn : finalizePair b p.SwKrnSamples_ p.krnSamples_ with
          | error e =>
              rw [finalize_error3 b p pc krw e hpc hkrw hkrn] at h
              exact Except.noConfusion h
          | ok krn =>
              rw [finalize_eq_of_pairs b p pc krw krn hpc hkrw hkrn] at h
              injection h with h
              exact ⟨pc, krw, krn, rfl, rfl, rfl, h.symm⟩

end Opm.Params

namespace Opm.Params

/-! ### Further helper lemmas -/

theorem ne_nil_of_headD_gt (l : List ℚ) (h : l.headD 0 > l.getLastD 0) : l ≠ [] := by
  intro hnil
  rw [hnil] at h
  simp at h

theorem ne_nil_of_length_eq (x y : List ℚ) (h : x.length = y.length) (hx : x ≠ []) :
    y ≠ [] := by
  intro hnil
  apply hx
  rw [← List.length_eq_zero, h, hnil]
  rfl

theorem zip_reverse_eq (x y : List ℚ) (h : x.length = y.length) :
    x.reverse.zip y.reverse = (x.zip y).reverse := by
  induction x generalizing y with
  | nil => simp
  | cons a t ih =>
      cases y with
      | nil => exact absurd h (by simp)
      | cons c u =>
          have hB : t.length = u.length := by simpa using h
          rw [List.reverse_cons, List.reverse_cons, List.zip_append (by simp [hB]),
              ih u hB]
          simp [List.zip_cons_cons]

theorem SwPcwnSamples_of_finalized (q : Params) (hq : q.finalized = true) :
    Params.SwPcwnSamples q = .ok q.SwPcwnSamples_ := by
  simp [Params.SwPcwnSamples, EnsureFinalized.check, hq, except_bind_ok]

theorem pcwnSamples_of_finalized (q : Params) (hq : q.finalized = true) :
    Params.pcwnSamples q = .ok q.pcwnSamples_ := by
  simp [Params.pcwnSamples, EnsureFinalized.check, hq, except_bind_ok]

theorem SwKrwSamples_of_finalized (q : Params) (hq : q.finalized = true) :
    Params.SwKrwSamples q = .ok q.SwKrwSamples_ := by
  simp [Params.SwKrwSamples, EnsureFinalized.check, hq, except_bind_ok]

theorem krwSamples_of_finalized (q : Params) (hq : q.finalized = true) :
    Params.krwSamples q = .ok q.krwSamples_ := by
  simp [Params.krwSamples, EnsureFinalized.check, hq, except_bind_ok]

theorem SwKrnSamples_of_finalized (q : Params) (hq : q.finalized = true) :
    Params.SwKrnSamples q = .ok q.SwKrnSamples_ := by
  simp [Params.SwKrnSamples, EnsureFinalized.check, hq, except_bind_ok]

theorem krnSamples_of_finalized (q : Params) (hq : q.finalized = true) :
    Params.krnSamples q = .ok q.krnSamples_ := by
  simp [Params.krnSamples, EnsureFinalized.check, hq, except_bind_ok]

theorem finalize_ok_finalized (b : Bool) (p q : Params) (h : finalize b p = .ok q) :
    q.finalized = true := by
  obtain ⟨pc, krw, krn, _, _, _, rfl⟩ := finalize_ok_inv b p q h
  rfl

theorem length_vcopy_vresize (src old : List ℚ) (n : Nat) :
    (vcopy src (vresize old n)).length = max src.length n := by
  simp [vcopy, vresize]
  omega

end Opm.Params

open Opm Opm.Params in
/-- C2 (confirmed): on a mutable (owning) table with equal-length, non-empty pairs,
`finalize` reverses a pair `(x, y)` if and only if both `x.front() > x.back()` and
`x.front() > y.back()` hold; if either comparison fails, both sequences of that pair
are left exactly as they were. -/
theorem C2_reorder_iff_gated (p : Params)
    (h1 : p.SwPcwnSamples_ ≠ []) (h4 : p.pcwnSamples_ ≠ [])
    (h2 : p.SwKrwSamples_ ≠ []) (h5 : p.krwSamples_ ≠ [])
    (h3 : p.SwKrnSamples_ ≠ []) (h6 : p.krnSamples_ ≠ [])
    (l1 : p.SwPcwnSamples_.length = p.pcwnSamples_.length)
    (l2 : p.SwKrwSamples_.length = p.krwSamples_.length)
    (l3 : p.SwKrnSamples_.length = p.krnSamples_.length) :
    finalize false p =
      .ok { finalized := true
            SwPcwnSamples_ :=
              if p.SwPcwnSamples_.headD 0 > p.SwPcwnSamples_.getLastD 0 ∧
                 p.SwPcwnSamples_.headD 0 > p.pcwnSamples_.getLastD 0
              then p.SwPcwnSamples_.reverse else p.SwPcwnSamples_
            SwKrwSamples_ :=
              if p.SwKrwSamples_.headD 0 > p.SwKrwSamples_.getLastD 0 ∧
                 p.SwKrwSamples_.headD 0 > p.krwSamples_.getLastD 0
              then p.SwKrwSamples_.reverse else p.SwKrwSamples_
            SwKrnSamples_ :=
              if p.SwKrnSamples_.headD 0 > p.SwKrnSamples_.getLastD 0 ∧
                 p.SwKrnSamples_.headD 0 > p.krnSamples_.getLastD 0
              then p.SwKrnSamples_.reverse else p.SwKrnSamples_
            pcwnSamples_ :=
              if p.SwPcwnSamples_.headD 0 > p.SwPcwnSamples_.getLastD 0 ∧
                 p.SwPcwnSamples_.headD 0 > p.pcwnSamples_.getLastD 0
              then p.pcwnSamples_.reverse else p.pcwnSamples_
            krwSamples_ :=
              if p.SwKrwSamples_.headD 0 > p.SwKrwSamples_.getLastD 0 ∧
                 p.SwKrwSamples_.headD 0 > p.krwSamples_.getLastD 0
              then p.krwSamples_.reverse else p.krwSamples_
            krnSamples_ :=
              if p.SwKrnSamples_.headD 0 > p.SwKrnSamples_.getLastD 0 ∧
                 p.SwKrnSamples_.headD 0 > p.krnSamples_.getLastD 0
              then p.krnSamples_.reverse else p.krnSamples_ } := by
  rw [finalize_eq_of_pairs false p _ _ _
        (finalizePair_false_eq _ _ h1 h4 l1)
        (finalizePair_false_eq _ _ h2 h5 l2)
        (finalizePair_false_eq _ _ h3 h6 l3)]
  simp only [apply_ite Prod.fst, apply_ite Prod.snd]

open Opm Opm.Params in
/-- Witness for C2 at a concrete table: the capillary-pressure pair is descending and
gated (so it is reversed), the `krw` pair is ascending (untouched), and the `krn` pair
is descending but fails the gate (untouched). -/
theorem C2_reorder_iff_gated_witness :
    finalize false
      { finalized := false
        SwPcwnSamples_ := [2, 1, 0]
        SwKrwSamples_ := [0, 1]
        SwKrnSamples_ := [3, 2]
        pcwnSamples_ := [1, 1, 1]
        krwSamples_ := [5, 6]
        krnSamples_ := [9, 9] } =
      .ok { finalized := true
            SwPcwnSamples_ := [0, 1, 2]
            SwKrwSamples_ := [0, 1]
            SwKrnSamples_ := [3, 2]
            pcwnSamples_ := [1, 1, 1]
            krwSamples_ := [5, 6]
            krnSamples_ := [9, 9] } := by
  rw [C2_reorder_iff_gated _ (by decide) (by decide) (by decide) (by decide) (by decide)
        (by decide) (by decide) (by decide) (by decide)]
  decide

open Opm Opm.Params in
/-- Counterexample for C1 as stated: for the spec example `SwPcwn=[1.0,0.5,0.0]`,
`Pcwn=[0.0,1.0,2.0]`, the gate `SwPcwn.front() > Pcwn.back()` is `1.0 > 2.0`, which is
false, so `finalize` leaves both sequences unchanged instead of reversing them. -/
theorem C1_example_not_reversed :
    finalize false
      { finalized := false
        SwPcwnSamples_ := [1, 1/2, 0]
        SwKrwSamples_ := [0, 1]
        SwKrnSamples_ := [0, 1]
        pcwnSamples_ := [0, 1, 2]
        krwSamples_ := [0, 1]
        krnSamples_ := [0, 1] } =
      .ok { finalized := true
            SwPcwnSamples_ := [1, 1/2, 0]
            SwKrwSamples_ := [0, 1]
            SwKrnSamples_ := [0, 1]
            pcwnSamples_ := [0, 1, 2]
            krwSamples_ := [0, 1]
            krnSamples_ := [0, 1] } ∧
    ¬ finalize false
      { finalized := false
        SwPcwnSamples_ := [1, 1/2, 0]
        SwKrwSamples_ := [0, 1]
        SwKrnSamples_ := [0, 1]
        pcwnSamples_ := [0, 1, 2]
        krwSamples_ := [0, 1]
        krnSamples_ := [0, 1] } =
      .ok { finalized := true
            SwPcwnSamples_ := [0, 1/2, 1]
            SwKrwSamples_ := [0, 1]
            SwKrnSamples_ := [0, 1]
            pcwnSamples_ := [2, 1, 0]
            krwSamples_ := [0, 1]
            krnSamples_ := [0, 1] } :=
  ⟨rfl, by decide⟩

open Opm Opm.Params in
/-- C1 (amended): on a mutable (owning) table whose three pairs have equal-length,
non-empty sequences, whose saturation sequences are in descending order (first element
greater than last element), and which additionally satisfy the reorder gate
`x.front() > y.back()` for each pair, `finalize` reverses both the saturation and the
paired-value sequence of each pair, so that saturation order becomes ascending, and
the reversal preserves the original `(x, y)` pairing (the multiset of pairs is
unchanged, only traversal order is reversed). -/
theorem C1_finalize_reverses_descending_gated (p : Params)
    (l1 : p.SwPcwnSamples_.length = p.pcwnSamples_.length)
    (l2 : p.SwKrwSamples_.length = p.krwSamples_.length)
    (l3 : p.SwKrnSamples_.length = p.krnSamples_.length)
    (d1 : p.SwPcwnSamples_.headD 0 > p.SwPcwnSamples_.getLastD 0)
    (d2 : p.SwKrwSamples_.headD 0 > p.SwKrwSamples_.getLastD 0)
    (d3 : p.SwKrnSamples_.headD 0 > p.SwKrnSamples_.getLastD 0)
    (g1 : p.SwPcwnSamples_.headD 0 > p.pcwnSamples_.getLastD 0)
    (g2 : p.SwKrwSamples_.headD 0 > p.krwSamples_.getLastD 0)
    (g3 : p.SwKrnSamples_.headD 0 > p.krnSamples_.getLastD 0) :
    finalize false p =
      .ok { finalized := true
            SwPcwnSamples_ := p.SwPcwnSamples_.reverse
            SwKrwSamples_ := p.SwKrwSamples_.reverse
            SwKrnSamples_ := p.SwKrnSamples_.reverse
            pcwnSamples_ := p.pcwnSamples_.reverse
            krwSamples_ := p.krwSamples_.reverse
            krnSamples_ := p.krnSamples_.reverse } ∧
    p.SwPcwnSamples_.reverse.headD 0 ≤ p.SwPcwnSamples_.reverse.getLastD 0 ∧
    p.SwKrwSamples_.reverse.headD 0 ≤ p.SwKrwSamples_.reverse.getLastD 0 ∧
    p.SwKrnSamples_.reverse.headD 0 ≤ p.SwKrnSamples_.reverse.getLastD 0 ∧
    (↑(p.SwPcwnSamples_.reverse.zip p.pcwnSamples_.reverse) : Multiset (ℚ × ℚ)) =
      ↑(p.SwPcwnSamples_.zip p.pcwnSamples_) ∧
    (↑(p.SwKrwSamples_.reverse.zip p.krwSamples_.reverse) : Multiset (ℚ × ℚ)) =
      ↑(p.SwKrwSamples_.zip p.krwSamples_) ∧
    (↑(p.SwKrnSamples_.reverse.zip p.krnSamples_.reverse) : Multiset (ℚ × ℚ)) =
      ↑(p.SwKrnSamples_.zip p.krnSamples_) := by
  have h1 : p.SwPcwnSamples_ ≠ [] := ne_nil_of_headD_gt _ d1
  have h2 : p.SwKrwSamples_ ≠ [] := ne_nil_of_headD_gt _ d2
  have h3 : p.SwKrnSamples_ ≠ [] := ne_nil_of_headD_gt _ d3
  have h4 : p.pcwnSamples_ ≠ [] := ne_nil_of_length_eq _ _ l1 h1
  have h5 : p.krwSamples_ ≠ [] := ne_nil_of_length_eq _ _ l2 h2
  have h6 : p.krnSamples_ ≠ [] := ne_nil_of_length_eq _ _ l3 h3
  refine ⟨?_, ?_, ?_, ?_, ?_, ?_, ?_⟩
  · rw [finalize_eq_of_pairs false p _ _ _
          ((finalizePair_false_eq _ _ h1 h4 l1).trans (by rw [if_pos ⟨d1, g1⟩]))
          ((finalizePair_false_eq _ _ h2 h5 l2).trans (by rw [if_pos ⟨d2, g2⟩]))
          ((finalizePair_false_eq _ _ h3 h6 l3).trans (by rw [if_pos ⟨d3, g3⟩]))]
  · rw [headD_reverse, getLastD_reverse]
    exact le_of_lt d1
  · rw [headD_reverse, getLastD_reverse]
    exact le_of_lt d2
  · rw [headD_reverse, getLastD_reverse]
    exact le_of_lt d3
  · rw [zip_reverse_eq _ _ l1]
    exact Multiset.coe_eq_coe.mpr ((p.SwPcwnSamples_.zip p.pcwnSamples_).reverse_perm)
  · rw [zip_reverse_eq _ _ l2]
    exact Multiset.coe_eq_coe.mpr ((p.SwKrwSamples_.zip p.krwSamples_).reverse_perm)
  · rw [zip_reverse_eq _ _ l3]
    exact Multiset.coe_eq_coe.mpr ((p.SwKrnSamples_.zip p.krnSamples_).reverse_perm)

open Opm Opm.Params in
/-- Witness for the amended C1 at a concrete table whose three pairs are all
descending and gated. -/
theorem C1_finalize_reverses_descending_gated_witness :
    finalize false
      { finalized := false
        SwPcwnSamples_ := [2, 1, 0]
        SwKrwSamples_ := [4, 3]
        SwKrnSamples_ := [6, 5]
        pcwnSamples_ := [1, 1, 1]
        krwSamples_ := [2, 2]
        krnSamples_ := [3, 3] } =
      .ok { finalized := true
            SwPcwnSamples_ := ([2, 1, 0] : List ℚ).reverse
            SwKrwSamples_ := ([4, 3] : List ℚ).reverse
            SwKrnSamples_ := ([6, 5] : List ℚ).reverse
            pcwnSamples_ := ([1, 1, 1] : List ℚ).reverse
            krwSamples_ := ([2, 2] : List ℚ).reverse
            krnSamples_ := ([3, 3] : List ℚ).reverse } ∧
    (([2, 1, 0] : List ℚ).reverse.headD 0 ≤ ([2, 1, 0] : List ℚ).reverse.getLastD 0 ∧
     ([4, 3] : List ℚ).reverse.headD 0 ≤ ([4, 3] : List ℚ).reverse.getLastD 0 ∧
     ([6, 5] : List ℚ).reverse.headD 0 ≤ ([6, 5] : List ℚ).reverse.getLastD 0 ∧
     (↑(([2, 1, 0] : List ℚ).reverse.zip ([1, 1, 1] : List ℚ).reverse) : Multiset (ℚ × ℚ)) =
       ↑(([2, 1, 0] : List ℚ).zip ([1, 1, 1] : List ℚ)) ∧
     (↑(([4, 3] : List ℚ).reverse.zip ([2, 2] : List ℚ).reverse) : Multiset (ℚ × ℚ)) =
       ↑(([4, 3] : List ℚ).zip ([2, 2] : List ℚ)) ∧
     (↑(([6, 5] : List ℚ).reverse.zip ([3, 3] : List ℚ).reverse) : Multiset (ℚ × ℚ)) =
       ↑(([6, 5] : List ℚ).zip ([3, 3] : List ℚ))) := by
  have h := C1_finalize_reverses_descending_gated
    { finalized := false
      SwPcwnSamples_ := [2, 1, 0]
      SwKrwSamples_ := [4, 3]
      SwKrnSamples_ := [6, 5]
      pcwnSamples_ := [1, 1, 1]
      krwSamples_ := [2, 2]
      krnSamples_ := [3, 3] }
    (by decide) (by decide) (by decide) (by decide) (by decide) (by decide)
    (by decide) (by decide) (by decide)
  exact ⟨h.1, h.2.1, h.2.2.1, h.2.2.2.1, h.2.2.2.2.1, h.2.2.2.2.2.1, h.2.2.2.2.2.2⟩

open Opm Opm.Params in
/-- C5 (confirmed): for equal-length, non-empty sample sequences whose saturation
sequences are in ascending order (first element not greater than last element),
constructing a table from them (which finalizes) leaves all six sequences
element-wise unchanged. -/
theorem C5_ascending_unchanged (swPc pc swKrw krw swKrn krn : List ℚ)
    (h1 : swPc ≠ []) (h2 : swKrw ≠ []) (h3 : swKrn ≠ [])
    (l1 : swPc.length = pc.length)
    (l2 : swKrw.length = krw.length)
    (l3 : swKrn.length = krn.length)
    (a1 : swPc.headD 0 ≤ swPc.getLastD 0)
    (a2 : swKrw.headD 0 ≤ swKrw.getLastD 0)
    (a3 : swKrn.headD 0 ≤ swKrn.getLastD 0) :
    mk6 false swPc pc swKrw krw swKrn krn =
      .ok { finalized := true
            SwPcwnSamples_ := swPc
            SwKrwSamples_ := swKrw
            SwKrnSamples_ := swKrn
            pcwnSamples_ := pc
            krwSamples_ := krw
            krnSamples_ := krn } := by
  have h4 : pc ≠ [] := ne_nil_of_length_eq _ _ l1 h1
  have h5 : krw ≠ [] := ne_nil_of_length_eq _ _ l2 h2
  have h6 : krn ≠ [] := ne_nil_of_length_eq _ _ l3 h3
  show finalize false
      { finalized := false
        SwPcwnSamples_ := swPc
        SwKrwSamples_ := swKrw
        SwKrnSamples_ := swKrn
        pcwnSamples_ := pc
        krwSamples_ := krw
        krnSamples_ := krn } = _
  rw [finalize_eq_of_pairs false _ (swPc, pc) (swKrw, krw) (swKrn, krn)
        (finalizePair_eq_of_not false _ _ h1 h4 (by rw [not_and]; intro hgt; exact absurd hgt (not_lt.mpr a1)))
        (finalizePair_eq_of_not false _ _ h2 h5 (by rw [not_and]; intro hgt; exact absurd hgt (not_lt.mpr a2)))
        (finalizePair_eq_of_not false _ _ h3 h6 (by rw [not_and]; intro hgt; exact absurd hgt (not_lt.mpr a3)))]

open Opm Opm.Params in
/-- Witness for C5 at concrete ascending tables (spec example `SwKrw=[0,0.5,1]`
scaled to integral values is covered by the all-integer table used here). -/
theorem C5_ascending_unchanged_witness :
    mk6 false [0, 1] [5, 5] [0, 1] [1, 2] [0, 1] [2, 3] =
      .ok { finalized := true
            SwPcwnSamples_ := [0, 1]
            SwKrwSamples_ := [0, 1]
            SwKrnSamples_ := [0, 1]
            pcwnSamples_ := [5, 5]
            krwSamples_ := [1, 2]
            krnSamples_ := [2, 3] } :=
  C5_ascending_unchanged [0, 1] [5, 5] [0, 1] [1, 2] [0, 1] [2, 3]
    (by decide) (by decide) (by decide) (by decide) (by decide) (by decide)
    (by decide) (by decide) (by decide)

open Opm Opm.Params in
/-- C10 (confirmed): on a mutable table with equal-length, non-empty pairs, the
per-pair reorder decision of `finalize` is idempotent: applying it a second time to
the result of a first application leaves both sequences unchanged. -/
theorem C10_reorder_idempotent (sw v swB vB : List ℚ)
    (hsw : sw ≠ []) (hlen : sw.length = v.length)
    (h : finalizePair false sw v = .ok (swB, vB)) :
    finalizePair false swB vB = .ok (swB, vB) :=
  finalizePair_post sw v swB vB hlen h false

open Opm Opm.Params in
/-- Witness for C10: the pair `([2,1,0], [0,1,1])` is reversed by the first
application, and a second application leaves the reversed pair unchanged. -/
theorem C10_reorder_idempotent_witness :
    finalizePair false [2, 1, 0] [0, 1, 1] = .ok ([0, 1, 2], [1, 1, 0]) ∧
    finalizePair false [0, 1, 2] [1, 1, 0] = .ok ([0, 1, 2], [1, 1, 0]) :=
  ⟨by decide,
   C10_reorder_idempotent [2, 1, 0] [0, 1, 1] [0, 1, 2] [1, 1, 0]
     (by decide) (by decide) (by decide)⟩

open Opm Opm.Params in
/-- C3 (confirmed): on a table backed by an immutable/reference (view) container type
whose pairs are equal-length and non-empty, if some pair satisfies both
`x.front() > x.back()` and the gate `x.front() > y.back()`, `finalize` fails with the
reported logic error; if no pair satisfies both conditions, `finalize` succeeds
without mutating any sequence. -/
theorem C3_view_descending_fails (p : Params)
    (h1 : p.SwPcwnSamples_ ≠ []) (h2 : p.SwKrwSamples_ ≠ []) (h3 : p.SwKrnSamples_ ≠ [])
    (l1 : p.SwPcwnSamples_.length = p.pcwnSamples_.length)
    (l2 : p.SwKrwSamples_.length = p.krwSamples_.length)
    (l3 : p.SwKrnSamples_.length = p.krnSamples_.length) :
    (((p.SwPcwnSamples_.headD 0 > p.SwPcwnSamples_.getLastD 0 ∧
       p.SwPcwnSamples_.headD 0 > p.pcwnSamples_.getLastD 0) ∨
      (p.SwKrwSamples_.headD 0 > p.SwKrwSamples_.getLastD 0 ∧
       p.SwKrwSamples_.headD 0 > p.krwSamples_.getLastD 0) ∨
      (p.SwKrnSamples_.headD 0 > p.SwKrnSamples_.getLastD 0 ∧
       p.SwKrnSamples_.headD 0 > p.krnSamples_.getLastD 0)) →
      finalize true p = .error .logicError) ∧
    (¬((p.SwPcwnSamples_.headD 0 > p.SwPcwnSamples_.getLastD 0 ∧
        p.SwPcwnSamples_.headD 0 > p.pcwnSamples_.getLastD 0) ∨
       (p.SwKrwSamples_.headD 0 > p.SwKrwSamples_.getLastD 0 ∧
        p.SwKrwSamples_.headD 0 > p.krwSamples_.getLastD 0) ∨
       (p.SwKrnSamples_.headD 0 > p.SwKrnSamples_.getLastD 0 ∧
        p.SwKrnSamples_.headD 0 > p.krnSamples_.getLastD 0)) →
      finalize true p = .ok { p with finalized := true }) := by
  have h4 : p.pcwnSamples_ ≠ [] := ne_nil_of_length_eq _ _ l1 h1
  have h5 : p.krwSamples_ ≠ [] := ne_nil_of_length_eq _ _ l2 h2
  have h6 : p.krnSamples_ ≠ [] := ne_nil_of_length_eq _ _ l3 h3
  constructor
  · intro hc
    by_cases c1 : p.SwPcwnSamples_.headD 0 > p.SwPcwnSamples_.getLastD 0 ∧
        p.SwPcwnSamples_.headD 0 > p.pcwnSamples_.getLastD 0
    · exact finalize_error1 true p _
        ((finalizePair_true_eq _ _ h1 h4).trans (if_pos c1))
    · by_cases c2 : p.SwKrwSamples_.headD 0 > p.SwKrwSamples_.getLastD 0 ∧
          p.SwKrwSamples_.headD 0 > p.krwSamples_.getLastD 0
      · exact finalize_error2 true p _ _
          (finalizePair_eq_of_not true _ _ h1 h4 c1)
          ((finalizePair_true_eq _ _ h2 h5).trans (if_pos c2))
      · have c3 : p.SwKrnSamples_.headD 0 > p.SwKrnSamples_.getLastD 0 ∧
            p.SwKrnSamples_.headD 0 > p.krnSamples_.getLastD 0 := by tauto
        exact finalize_error3 true p _ _ _
          (finalizePair_eq_of_not true _ _ h1 h4 c1)
          (finalizePair_eq_of_not true _ _ h2 h5 c2)
          ((finalizePair_true_eq _ _ h3 h6).trans (if_pos c3))
  · intro hc
    have nc1 := fun h => hc (Or.inl h)
    have nc2 := fun h => hc (Or.inr (Or.inl h))
    have nc3 := fun h => hc (Or.inr (Or.inr h))
    rw [finalize_eq_of_pairs true p _ _ _
          (finalizePair_eq_of_not true _ _ h1 h4 nc1)
          (finalizePair_eq_of_not true _ _ h2 h5 nc2)
          (finalizePair_eq_of_not true _ _ h3 h6 nc3)]

open Opm Opm.Params in
/-- Witness for C3: a view table with a descending, gated capillary-pressure pair
fails with the logic error; a view table whose descending pair fails the gate
finalizes without mutating any sequence. -/
theorem C3_view_descending_fails_witness :
    finalize true
      { finalized := false
        SwPcwnSamples_ := [1, 0]
        SwKrwSamples_ := [0, 1]
        SwKrnSamples_ := [0, 1]
        pcwnSamples_ := [0, 0]
        krwSamples_ := [0, 1]
        krnSamples_ := [0, 1] } = .error .logicError ∧
    finalize true
      { finalized := false
        SwPcwnSamples_ := [1, 0]
        SwKrwSamples_ := [0, 1]
        SwKrnSamples_ := [0, 1]
        pcwnSamples_ := [9, 9]
        krwSamples_ := [0, 1]
        krnSamples_ := [0, 1] } =
      .ok { finalized := true
            SwPcwnSamples_ := [1, 0]
            SwKrwSamples_ := [0, 1]
            SwKrnSamples_ := [0, 1]
            pcwnSamples_ := [9, 9]
            krwSamples_ := [0, 1]
            krnSamples_ := [0, 1] } :=
  ⟨(C3_view_descending_fails _ (by decide) (by decide) (by decide) (by decide) (by decide)
      (by decide)).1 (Or.inl (by decide)),
   (C3_view_descending_fails _ (by decide) (by decide) (by decide) (by decide) (by decide)
      (by decide)).2 (by decide)⟩

open Opm Opm.Params in
/-- C4 (confirmed): for every table, each of the six read accessors fails with the
finalize-guard error while the object is unfinalized, and after `finalize` has run
each accessor returns the stored sequence. -/
theorem C4_accessors_guarded :
    (∀ p : Params, p.finalized = false →
       (Params.SwPcwnSamples p = .error .notFinalized ∧
        Params.pcwnSamples p = .error .notFinalized ∧
        Params.SwKrwSamples p = .error .notFinalized ∧
        Params.krwSamples p = .error .notFinalized ∧
        Params.SwKrnSamples p = .error .notFinalized ∧
        Params.krnSamples p = .error .notFinalized)) ∧
    (∀ (b : Bool) (p q : Params), finalize b p = .ok q →
       (Params.SwPcwnSamples q = .ok q.SwPcwnSamples_ ∧
        Params.pcwnSamples q = .ok q.pcwnSamples_ ∧
        Params.SwKrwSamples q = .ok q.SwKrwSamples_ ∧
        Params.krwSamples q = .ok q.krwSamples_ ∧
        Params.SwKrnSamples q = .ok q.SwKrnSamples_ ∧
        Params.krnSamples q = .ok q.krnSamples_)) := by
  constructor
  · intro p hp
    refine ⟨?_, ?_, ?_, ?_, ?_, ?_⟩ <;>
      simp [Params.SwPcwnSamples, Params.pcwnSamples, Params.SwKrwSamples,
            Params.krwSamples, Params.SwKrnSamples, Params.krnSamples,
            EnsureFinalized.check, hp, except_bind_error]
  · intro b p q h
    have hq := finalize_ok_finalized b p q h
    exact ⟨SwPcwnSamples_of_finalized q hq, pcwnSamples_of_finalized q hq,
           SwKrwSamples_of_finalized q hq, krwSamples_of_finalized q hq,
           SwKrnSamples_of_finalized q hq, krnSamples_of_finalized q hq⟩

open Opm Opm.Params in
/-- Witness for C4: reading the default-constructed (unfinalized) table fails with
the guard error; after finalizing a populated table the accessor returns the stored
sequence. -/
theorem C4_accessors_guarded_witness :
    Params.SwPcwnSamples Params.mkDefault = .error .notFinalized ∧
    Params.SwPcwnSamples
      { finalized := true
        SwPcwnSamples_ := [0, 1]
        SwKrwSamples_ := [0, 1]
        SwKrnSamples_ := [0, 1]
        pcwnSamples_ := [7, 8]
        krwSamples_ := [5, 6]
        krnSamples_ := [3, 4] } = .ok [0, 1] :=
  ⟨(C4_accessors_guarded.1 Params.mkDefault rfl).1,
   (C4_accessors_guarded.2 false
      { finalized := false
        SwPcwnSamples_ := [0, 1]
        SwKrwSamples_ := [0, 1]
        SwKrnSamples_ := [0, 1]
        pcwnSamples_ := [7, 8]
        krwSamples_ := [5, 6]
        krnSamples_ := [3, 4] } _ (by decide)).1⟩

open Opm Opm.Params in
/-- C8 (confirmed): the equal-length pair invariant is established by the default
constructor and preserved by each setter (under its equal-length precondition) and by
`finalize`'s pairwise normalization. -/
theorem C8_length_invariant :
    lenInv Params.mkDefault ∧
    (∀ (p : Params) (sw v : List ℚ), sw.length = v.length →
       lenInv p → lenInv (setPcnwSamples p sw v)) ∧
    (∀ (p : Params) (sw v : List ℚ), sw.length = v.length →
       lenInv p → lenInv (setKrwSamples p sw v)) ∧
    (∀ (p : Params) (sw v : List ℚ), sw.length = v.length →
       lenInv p → lenInv (setKrnSamples p sw v)) ∧
    (∀ (b : Bool) (p q : Params), lenInv p → finalize b p = .ok q → lenInv q) := by
  refine ⟨⟨rfl, rfl, rfl⟩, ?_, ?_, ?_, ?_⟩
  · intro p sw v hlen hp
    refine ⟨?_, ?_, ?_⟩
    · simp [setPcnwSamples, length_vcopy_vresize]
      omega
    · simpa [setPcnwSamples] using hp.2.1
    · simpa [setPcnwSamples] using hp.2.2
  · intro p sw v hlen hp
    refine ⟨?_, ?_, ?_⟩
    · simpa [setKrwSamples] using hp.1
    · simp [setKrwSamples, length_vcopy_vresize]
      omega
    · simpa [setKrwSamples] using hp.2.2
  · intro p sw v hlen hp
    refine ⟨?_, ?_, ?_⟩
    · simpa [setKrnSamples] using hp.1
    · simpa [setKrnSamples] using hp.2.1
    · simp [setKrnSamples, length_vcopy_vresize]
      omega
  · intro b p q hp h
    obtain ⟨pc, krw, krn, hpc, hkrw, hkrn, rfl⟩ := finalize_ok_inv b p q h
    obtain ⟨e1, e2⟩ := finalizePair_ok_lengths b _ _ pc.1 pc.2 hpc
    obtain ⟨e3, e4⟩ := finalizePair_ok_lengths b _ _ krw.1 krw.2 hkrw
    obtain ⟨e5, e6⟩ := finalizePair_ok_lengths b _ _ krn.1 krn.2 hkrn
    exact ⟨e1.trans (hp.1.trans e2.symm),
           e3.trans (hp.2.1.trans e4.symm),
           e5.trans (hp.2.2.trans e6.symm)⟩

open Opm Opm.Params in
/-- Witness for C8: the invariant holds after populating the capillary-pressure pair
of a fresh table, and after finalizing a table with a descending gated pair. -/
theorem C8_length_invariant_witness :
    lenInv (setPcnwSamples Params.mkDefault [1, 2] [3, 4]) ∧
    lenInv { finalized := true
             SwPcwnSamples_ := [0, 1]
             SwKrwSamples_ := [0, 1]
             SwKrnSamples_ := [0, 1]
             pcwnSamples_ := [0, 0]
             krwSamples_ := [5, 6]
             krnSamples_ := [7, 8] } :=
  ⟨C8_length_invariant.2.1 Params.mkDefault [1, 2] [3, 4] (by decide) (by decide),
   C8_length_invariant.2.2.2.2 false
     { finalized := false
       SwPcwnSamples_ := [1, 0]
       SwKrwSamples_ := [0, 1]
       SwKrnSamples_ := [0, 1]
       pcwnSamples_ := [0, 0]
       krwSamples_ := [5, 6]
       krnSamples_ := [7, 8] } _ (by decide) (by decide)⟩

open Opm Opm.Params in
/-- C9 (confirmed, for the owning instantiation): with equal-length value sequences,
`finalize` avoids the out-of-bounds branch exactly when all three saturation
sequences are non-empty; finalizing a default-constructed, unpopulated table hits the
out-of-bounds branch. -/
theorem C9_oob_iff_nonempty :
    (∀ p : Params,
       p.SwPcwnSamples_.length = p.pcwnSamples_.length →
       p.SwKrwSamples_.length = p.krwSamples_.length →
       p.SwKrnSamples_.length = p.krnSamples_.length →
       (¬ finalize false p = .error .outOfBounds ↔
         (p.SwPcwnSamples_ ≠ [] ∧ p.SwKrwSamples_ ≠ [] ∧ p.SwKrnSamples_ ≠ []))) ∧
    (∀ b : Bool, finalize b Params.mkDefault = .error .outOfBounds) := by
  constructor
  · intro p l1 l2 l3
    constructor
    · intro hOk
      have h1 : p.SwPcwnSamples_ ≠ [] := by
        intro hnil
        apply hOk
        apply finalize_error1
        rw [hnil]
        exact finalizePair_nil false _
      have h4 : p.pcwnSamples_ ≠ [] := ne_nil_of_length_eq _ _ l1 h1
      obtain ⟨r1, hr1⟩ : ∃ r, finalizePair false p.SwPcwnSamples_ p.pcwnSamples_ = .ok r :=
        ⟨_, finalizePair_false_eq _ _ h1 h4 l1⟩
      have h2 : p.SwKrwSamples_ ≠ [] := by
        intro hnil
        apply hOk
        apply finalize_error2 false p r1 _ hr1
        rw [hnil]
        exact finalizePair_nil false _
      have h5 : p.krwSamples_ ≠ [] := ne_nil_of_length_eq _ _ l2 h2
      obtain ⟨r2, hr2⟩ : ∃ r, finalizePair false p.SwKrwSamples_ p.krwSamples_ = .ok r :=
        ⟨_, finalizePair_false_eq _ _ h2 h5 l2⟩
      have h3 : p.SwKrnSamples_ ≠ [] := by
        intro hnil
        apply hOk
        apply finalize_error3 false p r1 r2 _ hr1 hr2
        rw [hnil]
        exact finalizePair_nil false _
      exact ⟨h1, h2, h3⟩
    · rintro ⟨h1, h2, h3⟩
      have h4 : p.pcwnSamples_ ≠ [] := ne_nil_of_length_eq _ _ l1 h1
      have h5 : p.krwSamples_ ≠ [] := ne_nil_of_length_eq _ _ l2 h2
      have h6 : p.krnSamples_ ≠ [] := ne_nil_of_length_eq _ _ l3 h3
      rw [finalize_eq_of_pairs false p _ _ _
            (finalizePair_false_eq _ _ h1 h4 l1)
            (finalizePair_false_eq _ _ h2 h5 l2)
            (finalizePair_false_eq _ _ h3 h6 l3)]
      exact fun hcontra => Except.noConfusion hcontra
  · intro b
    exact finalize_error1 b Params.mkDefault .outOfBounds (finalizePair_nil b _)

open Opm Opm.Params in
/-- Witness for C9: a populated table with non-empty saturation sequences does not
hit the out-of-bounds branch, and the default table does. -/
theorem C9_oob_iff_nonempty_witness :
    (¬ finalize false
        { finalized := false
          SwPcwnSamples_ := [0, 1]
          SwKrwSamples_ := [0, 1]
          SwKrnSamples_ := [0, 1]
          pcwnSamples_ := [2, 3]
          krwSamples_ := [4, 5]
          krnSamples_ := [6, 7] } = .error .outOfBounds ↔
      (([0, 1] : List ℚ) ≠ [] ∧ ([0, 1] : List ℚ) ≠ [] ∧ ([0, 1] : List ℚ) ≠ [])) ∧
    finalize true Params.mkDefault = .error .outOfBounds :=
  ⟨C9_oob_iff_nonempty.1 _ (by decide) (by decide) (by decide),
   C9_oob_iff_nonempty.2 true⟩

open Opm Opm.Params in
/-- C6 (confirmed): for a fully-owning table that has been finalized (with non-empty,
equal-length pairs), `make_view` succeeds at the value level and produces a view
table equal to the source, so all six accessors of the view return sequences
element-wise equal to the source's. -/
theorem C6_make_view_refines (p q : Params)
    (h1 : p.SwPcwnSamples_ ≠ []) (h2 : p.SwKrwSamples_ ≠ []) (h3 : p.SwKrnSamples_ ≠ [])
    (l1 : p.SwPcwnSamples_.length = p.pcwnSamples_.length)
    (l2 : p.SwKrwSamples_.length = p.krwSamples_.length)
    (l3 : p.SwKrnSamples_.length = p.krnSamples_.length)
    (h : finalize false p = .ok q) :
    make_view q = .ok q := by
  obtain ⟨pc, krw, krn, hpc, hkrw, hkrn, rfl⟩ := finalize_ok_inv false p q h
  have hv1 : finalizePair true pc.1 pc.2 = .ok (pc.1, pc.2) :=
    finalizePair_post _ _ _ _ l1 hpc true
  have hv2 : finalizePair true krw.1 krw.2 = .ok (krw.1, krw.2) :=
    finalizePair_post _ _ _ _ l2 hkrw true
  have hv3 : finalizePair true krn.1 krn.2 = .ok (krn.1, krn.2) :=
    finalizePair_post _ _ _ _ l3 hkrn true
  simp only [make_view, make_view_seq, SwPcwnSamples_of_finalized,
             pcwnSamples_of_finalized, SwKrwSamples_of_finalized,
             krwSamples_of_finalized, SwKrnSamples_of_finalized,
             krnSamples_of_finalized, except_bind_ok]
  show finalize true
      { finalized := false
        SwPcwnSamples_ := pc.1
        SwKrwSamples_ := krw.1
        SwKrnSamples_ := krn.1
        pcwnSamples_ := pc.2
        krwSamples_ := krw.2
        krnSamples_ := krn.2 } = _
  rw [finalize_eq_of_pairs true _ (pc.1, pc.2) (krw.1, krw.2) (krn.1, krn.2) hv1 hv2 hv3]

open Opm Opm.Params in
/-- Witness for C6: the view of a concrete finalized owning table equals that table
and is produced without failure. -/
theorem C6_make_view_refines_witness :
    make_view
      { finalized := true
        SwPcwnSamples_ := [0, 1]
        SwKrwSamples_ := [0, 1]
        SwKrnSamples_ := [0, 1]
        pcwnSamples_ := [0, 0]
        krwSamples_ := [4, 5]
        krnSamples_ := [6, 7] } =
      .ok { finalized := true
            SwPcwnSamples_ := [0, 1]
            SwKrwSamples_ := [0, 1]
            SwKrnSamples_ := [0, 1]
            pcwnSamples_ := [0, 0]
            krwSamples_ := [4, 5]
            krnSamples_ := [6, 7] } :=
  C6_make_view_refines
    { finalized := false
      SwPcwnSamples_ := [1, 0]
      SwKrwSamples_ := [0, 1]
      SwKrnSamples_ := [0, 1]
      pcwnSamples_ := [0, 0]
      krwSamples_ := [4, 5]
      krnSamples_ := [6, 7] } _
    (by decide) (by decide) (by decide) (by decide) (by decide) (by decide) (by decide)

open Opm Opm.Params in
/-- Counterexample for C7 as stated: `make_view` builds the view through the
six-argument constructor, which runs `finalize` on the view; the view construction
therefore does re-run the reorder decision.  On a finalized owning table whose
capillary-pressure pair was made descending-and-gated by a post-finalize setter call,
`make_view` fails with the immutable-reorder logic error, which could not happen if
the construction performed no reorder decision of its own. -/
theorem C7_view_reruns_finalize_counterexample :
    finalize false
      { finalized := false
        SwPcwnSamples_ := [0, 1]
        SwKrwSamples_ := [0, 1]
        SwKrnSamples_ := [0, 1]
        pcwnSamples_ := [2, 2]
        krwSamples_ := [3, 3]
        krnSamples_ := [4, 4] } =
      .ok { finalized := true
            SwPcwnSamples_ := [0, 1]
            SwKrwSamples_ := [0, 1]
            SwKrnSamples_ := [0, 1]
            pcwnSamples_ := [2, 2]
            krwSamples_ := [3, 3]
            krnSamples_ := [4, 4] } ∧
    make_view
      (setPcnwSamples
        { finalized := true
          SwPcwnSamples_ := [0, 1]
          SwKrwSamples_ := [0, 1]
          SwKrnSamples_ := [0, 1]
          pcwnSamples_ := [2, 2]
          krwSamples_ := [3, 3]
          krnSamples_ := [4, 4] } [1, 0] [0, 0]) = .error .logicError := by
  exact ⟨by decide, by decide⟩

open Opm Opm.Params in
/-- C7 (amended): a table produced by `make_view` from a finalized table is
constructed through the six-argument finalizing constructor: `make_view` re-runs
`finalize` on the view, performing the finalize-guard transition and re-evaluating
the per-pair reorder decision (on a table normalized by a mutable `finalize` every
decision is negative, so no sequence is mutated, as C6 shows). -/
theorem C7_view_constructed_by_finalizing_ctor (q : Params) (hq : q.finalized = true) :
    make_view q =
      Params.mk6 true q.SwPcwnSamples_ q.pcwnSamples_ q.SwKrwSamples_ q.krwSamples_
        q.SwKrnSamples_ q.krnSamples_ := by
  simp only [make_view, make_view_seq, SwPcwnSamples_of_finalized q hq,
             pcwnSamples_of_finalized q hq, SwKrwSamples_of_finalized q hq,
             krwSamples_of_finalized q hq, SwKrnSamples_of_finalized q hq,
             krnSamples_of_finalized q hq, except_bind_ok]

open Opm Opm.Params in
/-- Witness for the amended C7 at a concrete finalized table. -/
theorem C7_view_constructed_by_finalizing_ctor_witness :
    make_view
      { finalized := true
        SwPcwnSamples_ := [0, 1]
        SwKrwSamples_ := [0, 1]
        SwKrnSamples_ := [0, 1]
        pcwnSamples_ := [2, 3]
        krwSamples_ := [4, 5]
        krnSamples_ := [6, 7] } =
      Params.mk6 true [0, 1] [2, 3] [0, 1] [4, 5] [0, 1] [6, 7] :=
  C7_view_constructed_by_finalizing_ctor
    { finalized := true
      SwPcwnSamples_ := [0, 1]
      SwKrwSamples_ := [0, 1]
      SwKrnSamples_ := [0, 1]
      pcwnSamples_ := [2, 3]
      krwSamples_ := [4, 5]
      krnSamples_ := [6, 7] } rfl
